import Mathlib

/-!
Shallow embedding of the dwg2mvt frontend client logic.

The embedded code comes from two components:
* the uploader component (file submission, XMLHttpRequest upload, status
  polling, cancellation, progress display, message log), and
* the map component (bbox validation before fitBounds, layer-list
  normalization from GET /layers, layer selection toggling).

JavaScript values are modelled as follows: strings are `String`, numbers that
can be non-finite are `JSNum` (a rational or one of NaN/±Infinity), optional
JSON fields are `Option`, the JS `Set` of selected layer names is a
`Finset String`, and the reactive component state is an explicit record
threaded through step functions.  Each handler is a pure function from the
pre-state and the triggering event to the post-state plus its observable
outputs (emitted events, scheduling decisions, transport actions).
-/

set_option autoImplicit false

namespace Dwg2Mvt

/-- Parsed JSON body of a conversion/status response (the ConvertResult
interface of types.ts restricted to the fields the uploader reads). -/
structure ConvertResult where
  job_id : String
  status : String
  progress : Option Nat
  message : Option String
deriving Repr, DecidableEq

/-- Reactive state of the uploader component (the refs the embedded handlers
read or write). -/
structure ClientState where
  loading : Bool
  progress : Nat
  progressMsg : String
  logs : List String
  currentJobId : Option String
  xhrActive : Bool
deriving Repr, DecidableEq

/-- Events the uploader emits to its parent component. -/
inductive Emit where
  | convertEv (res : ConvertResult)
  | errorEv (msg : String)
deriving Repr, DecidableEq

/-- addLog: skip empty messages, and skip a message equal to the current last
log entry (duplicate-consecutive coalescing); otherwise append. -/
def addLog (logs : List String) (msg : String) : List String :=
  if msg = "" then logs
  else
    match logs.getLast? with
    | some last => if last = msg then logs else logs ++ [msg]
    | none => logs ++ [msg]

/-- cancelUpload: abort the in-flight XMLHttpRequest when one exists, clear
the loading flag, the current job id and the log, and report cancellation.
The Bool output records whether abort() was called on a transport. -/
def cancelUpload (st : ClientState) : ClientState × Bool × List Emit :=
  ({ st with xhrActive := false, loading := false, currentJobId := none,
             logs := [] },
   st.xhrActive, [Emit.errorEv "已取消上传"])

/-- One status-poll response as seen by the poll closure: a transport (fetch
or JSON-parse) error caught by the catch block, a non-ok HTTP response, or an
ok response with a parsed body. -/
inductive PollResp where
  | transportError
  | notOk
  | okResp (body : ConvertResult)
deriving Repr, DecidableEq

/-- Scheduling decision a poll invocation makes on exit: stop polling, or run
setTimeout(poll, delayMs). -/
inductive PollNext where
  | stop
  | again (delayMs : Nat)
deriving Repr, DecidableEq

/-- One invocation of the poll closure for job `jobId`: guard on the loading
flag and the current job id, then branch on the response exactly as the
fetch handler does (non-ok and transport errors reschedule at 2000ms; an ok
body updates progress, message and log, stops on status done or error, and
otherwise reschedules at 1000ms). -/
def pollStep (st : ClientState) (jobId : String) (resp : PollResp) :
    ClientState × PollNext × List Emit :=
  if st.loading = false ∨ st.currentJobId ≠ some jobId then
    (st, PollNext.stop, [])
  else
    match resp with
    | PollResp.transportError =>
        (st, if st.loading then PollNext.again 2000 else PollNext.stop, [])
    | PollResp.notOk =>
        (st, if st.loading then PollNext.again 2000 else PollNext.stop, [])
    | PollResp.okResp body =>
        let st1 : ClientState :=
          { st with progress := body.progress.getD 0,
                    progressMsg := body.message.getD "",
                    logs := addLog st.logs (body.message.getD "") }
        if body.status = "done" then
          ({ st1 with loading := false }, PollNext.stop,
           [Emit.convertEv body])
        else if body.status = "error" then
          ({ st1 with loading := false }, PollNext.stop,
           [Emit.errorEv (body.message.getD "转换失败")])
        else
          (st1, PollNext.again 1000, [])

/-- Result of the submit handler: synchronous rejection (no request sent) or
an upload request issued. -/
inductive SubmitOutcome where
  | rejected
  | uploadStarted
deriving Repr, DecidableEq

/-- The suffix ".dwg" as a character sequence. -/
def dwgSuffix : List Char := ['.', 'd', 'w', 'g']

/-- file.name.toLowerCase().endsWith(".dwg"), over the filename's character
sequence. -/
def nameIsDwg (name : List Char) : Bool :=
  dwgSuffix.isSuffixOf (name.map Char.toLower)

/-- onSubmit up to the point the XMLHttpRequest is sent: reject when no file
is selected or its lowercased name does not end in ".dwg"; otherwise reset
the progress state, clear the parent error, and start the upload.  The
filename is its character sequence. -/
def onSubmit (st : ClientState) (file : Option (List Char)) :
    ClientState × SubmitOutcome × List Emit :=
  match file with
  | none => (st, SubmitOutcome.rejected, [Emit.errorEv "请选择 .dwg 文件"])
  | some name =>
      if nameIsDwg name = false then
        (st, SubmitOutcome.rejected, [Emit.errorEv "请选择 .dwg 文件"])
      else
        ({ st with loading := true, progress := 0,
                   progressMsg := "正在上传...", logs := ["开始上传..."],
                   xhrActive := true },
         SubmitOutcome.uploadStarted, [Emit.errorEv ""])

/-- Observable outcome of the req.onload handler: an error surfaced to the
parent, or polling started for a job id. -/
inductive OnloadOutcome where
  | errorEmitted (msg : String)
  | pollingStarted (jobId : String)
deriving Repr, DecidableEq

/-- req.onload: clear the xhr ref; on a 2xx HTTP status parse the body
(`none` models a JSON.parse failure): an "error" body surfaces its message
and stops, any other body records the job id and starts polling after
resetting progress to 0; a non-2xx status surfaces the parsed error detail
or a generic failure message.  `errDetail` models the message extracted from
the non-2xx response body by the inner try/catch. -/
def onloadStep (st : ClientState) (httpStatus : Nat)
    (body : Option ConvertResult) (errDetail : Option String) :
    ClientState × OnloadOutcome :=
  let st0 : ClientState := { st with xhrActive := false }
  if 200 ≤ httpStatus ∧ httpStatus < 300 then
    match body with
    | some res =>
        if res.status = "error" then
          ({ st0 with loading := false },
           OnloadOutcome.errorEmitted (res.message.getD "转换失败"))
        else
          ({ st0 with logs := addLog st0.logs "上传完成，等待处理...",
                      progress := 0, progressMsg := "准备转换...",
                      currentJobId := some res.job_id },
           OnloadOutcome.pollingStarted res.job_id)
    | none =>
        ({ st0 with loading := false },
         OnloadOutcome.errorEmitted "响应解析失败")
  else
    ({ st0 with loading := false },
     OnloadOutcome.errorEmitted
       (errDetail.getD ("请求失败 " ++ toString httpStatus)))

/-- Upload progress percentage: Math.round((loaded / total) * 100) for
non-negative finite arguments, written over Nat as
floor((200 * loaded + total) / (2 * total)). -/
def uploadPercent (loaded total : Nat) : Nat :=
  (200 * loaded + total) / (2 * total)

/-- req.upload.onprogress: when the length is computable, display the rounded
upload percentage. -/
def uploadProgressStep (st : ClientState) (loaded total : Nat)
    (lengthComputable : Bool) : ClientState :=
  if lengthComputable then
    { st with progress := uploadPercent loaded total,
              progressMsg :=
                "正在上传... " ++ toString (uploadPercent loaded total) ++ "%" }
  else st

/-- An event observed by the uploader between submission and completion. -/
inductive ClientEvent where
  | uploadProg (loaded total : Nat) (lengthComputable : Bool)
  | uploadDone (httpStatus : Nat) (body : Option ConvertResult)
      (errDetail : Option String)
  | pollArrive (jobId : String) (resp : PollResp)
  | cancel
deriving Repr, DecidableEq

/-- Apply one event to the client state (outputs dropped). -/
def step (st : ClientState) : ClientEvent → ClientState
  | ClientEvent.uploadProg loaded total lc => uploadProgressStep st loaded total lc
  | ClientEvent.uploadDone s b d => (onloadStep st s b d).1
  | ClientEvent.pollArrive j r => (pollStep st j r).1
  | ClientEvent.cancel => (cancelUpload st).1

/-- Run a list of events. -/
def runTrace (st : ClientState) (evs : List ClientEvent) : ClientState :=
  evs.foldl step st

/-- The displayed progress value after each event of a trace. -/
def progressTrace (st : ClientState) : List ClientEvent → List Nat
  | [] => []
  | e :: rest =>
      let st1 := step st e
      st1.progress :: progressTrace st1 rest

/-! Map component (bbox validation, layer list, layer selection). -/

/-- A JavaScript number as used in a bbox: either a finite value (modelled as
a rational) or one of the non-finite values NaN, Infinity, -Infinity. -/
inductive JSNum where
  | fin (q : ℚ)
  | nan
  | posInf
  | negInf
deriving Repr, DecidableEq

/-- isValid from the bbox validation: Number.isFinite(n) && Math.abs(n) < 1e20.
Both comparison operands are finite here, so the rational comparison is
exact; any non-finite value fails Number.isFinite. -/
def isValid : JSNum → Bool
  | JSNum.fin q => decide (|q| < 10 ^ 20)
  | _ => false

/-- isValidLat from the bbox validation: n >= -90 && n <= 90.  A JS comparison
with NaN is false, Infinity fails <= 90, and -Infinity fails >= -90, so every
non-finite value yields false. -/
def isValidLat : JSNum → Bool
  | JSNum.fin q => decide (-90 ≤ q ∧ q ≤ 90)
  | _ => false

/-- The guard in resetView and in the result watcher: fitBounds is invoked on
[minX, minY, maxX, maxY] exactly when this returns true (both code sites
duplicate the same conjunction). -/
def bboxAccepted (minX minY maxX maxY : JSNum) : Bool :=
  isValid minX && isValid minY && isValid maxX && isValid maxY &&
    isValidLat minY && isValidLat maxY

/-- Spec-side reading of one coordinate constraint: finite and within
±1e20. -/
def FiniteWithin (n : JSNum) : Prop :=
  ∃ q, n = JSNum.fin q ∧ |q| < 10 ^ 20

/-- Spec-side reading of the latitude constraint: a finite value within
[-90, 90]. -/
def LatIn (n : JSNum) : Prop :=
  ∃ q, n = JSNum.fin q ∧ -90 ≤ q ∧ q ≤ 90

/-- Spec-side reading of the bbox contract, for comparison with the code:
each coordinate is finite and within ±1e20, and both Y values lie within
[-90, 90]. -/
def SpecBBoxOK (minX minY maxX maxY : JSNum) : Prop :=
  FiniteWithin minX ∧ FiniteWithin minY ∧ FiniteWithin maxX ∧
    FiniteWithin maxY ∧ LatIn minY ∧ LatIn maxY

/-- One layer descriptor as stored by the map component. -/
structure Layer where
  name : String
  color : String
deriving Repr, DecidableEq

/-- Body of a GET /layers response, tagged by shape at the interface
boundary: a bare array of name strings or an array of descriptor objects. -/
inductive LayersResponse where
  | strNames (names : List String)
  | descs (items : List Layer)
deriving Repr, DecidableEq

/-- Normalization in the result watcher: a non-empty array whose first
element is a string is mapped to descriptors with the default color
"#9ca3af"; otherwise the array is stored unchanged (an empty string array
falls into the unchanged branch and stores the empty list). -/
def normalizeLayers : LayersResponse → List Layer
  | LayersResponse.strNames names =>
      if 0 < names.length then
        names.map (fun n => { name := n, color := "#9ca3af" })
      else []
  | LayersResponse.descs items => items

/-- selectedLayers initialization after a layers fetch: the set of names of
the stored layer list. -/
def selectedInit (resp : LayersResponse) : Finset String :=
  ((normalizeLayers resp).map Layer.name).toFinset

/-- toggleLayer: remove the name when present, insert it when absent. -/
def toggleLayer (selected : Finset String) (layerName : String) :
    Finset String :=
  if layerName ∈ selected then selected.erase layerName
  else insert layerName selected

/-- A list with no two identical consecutive entries. -/
def NoConsecDup (l : List String) : Prop :=
  List.Chain' (fun a b => a ≠ b) l

/-- A concrete idle client state (the component's initial refs). -/
def st0 : ClientState :=
  { loading := false, progress := 0, progressMsg := "", logs := [],
    currentJobId := none, xhrActive := false }

/-- A concrete client state in the polling phase for job "job-1". -/
def stPolling : ClientState :=
  { loading := true, progress := 10, progressMsg := "", logs := [],
    currentJobId := some "job-1", xhrActive := false }

/-- A concrete client state during the upload phase. -/
def stUploading : ClientState :=
  { loading := true, progress := 0, progressMsg := "正在上传...",
    logs := ["开始上传..."], currentJobId := none, xhrActive := true }

/-- A concrete event trace: the upload reaches 100%, then the 2xx convert
response (status "queued", nothing terminal) arrives. -/
def evRegress : List ClientEvent :=
  [ClientEvent.uploadProg 5 5 true,
   ClientEvent.uploadDone 200
     (some { job_id := "j1", status := "queued", progress := some 0,
             message := some "排队中" }) none]

/-- addLog never changes the list when asked to append the current last
entry again. -/
lemma addLog_last_noop (logs : List String) (msg : String)
    (h : logs.getLast? = some msg) : addLog logs msg = logs := by
  unfold addLog
  by_cases hm : msg = ""
  · simp [hm]
  · simp [hm, h]

/-- Appending an element different from the last entry preserves the
absence of identical consecutive entries. -/
lemma noConsecDup_append (logs : List String) (msg : String)
    (h : NoConsecDup logs)
    (hl : ∀ last, logs.getLast? = some last → last ≠ msg) :
    NoConsecDup (logs ++ [msg]) := by
  unfold NoConsecDup at h ⊢
  rw [List.chain'_append]
  refine ⟨h, List.chain'_singleton msg, ?_⟩
  intro x hx y hy
  simp only [List.head?_cons, Option.mem_def, Option.some.injEq] at hy
  subst hy
  exact hl x hx

/-- addLog preserves the absence of identical consecutive entries. -/
lemma addLog_noConsecDup (logs : List String) (msg : String)
    (h : NoConsecDup logs) : NoConsecDup (addLog logs msg) := by
  by_cases hm : msg = ""
  · simpa [addLog, hm] using h
  · rcases hlast : logs.getLast? with _ | last
    · have heq : addLog logs msg = logs ++ [msg] := by
        simp [addLog, hm, hlast]
      rw [heq]
      refine noConsecDup_append logs msg h ?_
      intro l hl
      rw [hl] at hlast
      cases hlast
    · by_cases hdup : last = msg
      · have heq : addLog logs msg = logs := by
          simp [addLog, hm, hlast, hdup]
        rw [heq]
        exact h
      · have heq : addLog logs msg = logs ++ [msg] := by
          simp [addLog, hm, hlast, hdup]
        rw [heq]
        refine noConsecDup_append logs msg h ?_
        intro l hl
        rw [hl] at hlast
        rw [Option.some.inj hlast]
        exact hdup

/-- C3: over any sequence of addLog calls, a log with no two identical
consecutive entries keeps that shape, and appending a message equal to the
current last entry is a no-op. -/
theorem addLog_never_consecutive_duplicates :
    (∀ (start : List String) (msgs : List String), NoConsecDup start →
       NoConsecDup (msgs.foldl addLog start)) ∧
    (∀ (logs : List String) (msg : String), logs.getLast? = some msg →
       addLog logs msg = logs) := by
  constructor
  · intro start msgs
    induction msgs generalizing start with
    | nil => intro h; exact h
    | cons m rest ih =>
        intro h
        exact ih (addLog start m) (addLog_noConsecDup start m h)
  · exact addLog_last_noop

/-- C3 witness: a concrete run of addLog calls from the empty log, and a
concrete duplicate append that is a no-op. -/
theorem addLog_never_consecutive_duplicates_witness :
    NoConsecDup (["a", "a", "b", "", "b"].foldl addLog []) ∧
    addLog ["x", "y"] "y" = ["x", "y"] :=
  ⟨addLog_never_consecutive_duplicates.1 [] ["a", "a", "b", "", "b"]
      List.chain'_nil,
   addLog_never_consecutive_duplicates.2 ["x", "y"] "y" (by rfl)⟩

/-- C10: toggleLayer is an involution on the selected-layer set, and a
single call leaves the membership of every other name unchanged. -/
theorem toggleLayer_involution (s : Finset String) (n : String) :
    toggleLayer (toggleLayer s n) n = s ∧
    (∀ m : String, m ≠ n → (m ∈ toggleLayer s n ↔ m ∈ s)) := by
  constructor
  · by_cases h : n ∈ s
    · have h1 : toggleLayer s n = s.erase n := by simp [toggleLayer, h]
      rw [h1]
      have h2 : n ∉ s.erase n := Finset.not_mem_erase n s
      simp [toggleLayer, h2, Finset.insert_erase h]
    · have h1 : toggleLayer s n = insert n s := by simp [toggleLayer, h]
      rw [h1]
      simp [toggleLayer, Finset.mem_insert_self, Finset.erase_insert h]
  · intro m hm
    by_cases h : n ∈ s <;>
      simp [toggleLayer, h, Finset.mem_erase, Finset.mem_insert, hm]

/-- C10 witness: toggling a concrete absent name twice on a concrete set
restores it, and a different name's membership survives one toggle. -/
theorem toggleLayer_involution_witness :
    toggleLayer (toggleLayer {"wall"} "door") "door" = {"wall"} ∧
    ("wall" ∈ toggleLayer {"wall"} "door" ↔
      "wall" ∈ ({"wall"} : Finset String)) :=
  ⟨(toggleLayer_involution {"wall"} "door").1,
   (toggleLayer_involution {"wall"} "door").2 "wall" (by decide)⟩

/-- isValid agrees with the finite-within-bound reading. -/
lemma isValid_iff (n : JSNum) :
    isValid n = true ↔ FiniteWithin n := by
  cases n <;> simp [isValid, FiniteWithin]

/-- isValidLat agrees with the latitude-range reading. -/
lemma isValidLat_iff (n : JSNum) :
    isValidLat n = true ↔ LatIn n := by
  cases n <;> simp [isValidLat, LatIn]

/-- C2: the bbox guard shared by resetView and the result watcher accepts
[minX, minY, maxX, maxY] exactly when all four coordinates are finite with
absolute value below 1e20 and both Y values lie within [-90, 90]; in
particular [1e21, 0, 1, 1] is rejected and [-10, -5, 10, 5] is accepted. -/
theorem bbox_validation (a b c d : JSNum) :
    (bboxAccepted a b c d = true ↔ SpecBBoxOK a b c d) ∧
    bboxAccepted (JSNum.fin (10 ^ 21)) (JSNum.fin 0) (JSNum.fin 1)
      (JSNum.fin 1) = false ∧
    bboxAccepted (JSNum.fin (-10)) (JSNum.fin (-5)) (JSNum.fin 10)
      (JSNum.fin 5) = true := by
  refine ⟨?_, ?_, ?_⟩
  · simp only [bboxAccepted, Bool.and_eq_true, isValid_iff, isValidLat_iff,
      SpecBBoxOK]
    tauto
  · simp only [bboxAccepted, isValid, isValidLat, Bool.and_eq_false_iff]
    left; left; left; left; left
    rw [decide_eq_false_iff_not]
    norm_num
  · simp only [bboxAccepted, isValid, isValidLat, Bool.and_eq_true,
      decide_eq_true_eq]
    norm_num

/-- C4: a submission with no selected file or a filename whose lowercased
form does not end in ".dwg" is rejected synchronously — an error is emitted,
the state is unchanged, and no upload request is issued — and those are the
only rejected submissions. -/
theorem onSubmit_rejects_bad_files (st : ClientState)
    (file : Option (List Char)) :
    ((onSubmit st file).2.1 = SubmitOutcome.rejected ↔
      (file = none ∨ ∃ n, file = some n ∧ nameIsDwg n = false)) ∧
    ((onSubmit st file).2.1 = SubmitOutcome.rejected →
      (onSubmit st file).1 = st ∧
      (onSubmit st file).2.2 = [Emit.errorEv "请选择 .dwg 文件"]) := by
  rcases file with _ | name
  · simp [onSubmit]
  · by_cases h : nameIsDwg name = false
    · simp [onSubmit, h]
    · simp only [Bool.not_eq_false] at h
      simp [onSubmit, h]

/-- C4 witness: a concrete non-.dwg filename is rejected with the validation
message and no state change. -/
theorem onSubmit_rejects_bad_files_witness :
    (onSubmit st0 (some ['p', 'l', 'a', 'n', '.', 't', 'x', 't'])).1 = st0 ∧
    (onSubmit st0 (some ['p', 'l', 'a', 'n', '.', 't', 'x', 't'])).2.2 =
      [Emit.errorEv "请选择 .dwg 文件"] :=
  (onSubmit_rejects_bad_files st0
    (some ['p', 'l', 'a', 'n', '.', 't', 'x', 't'])).2 (by decide)

/-- C6: a non-empty bare array of name strings is normalized to descriptors
with the default color "#9ca3af", an array of descriptor objects is stored
unchanged, and the selected-layer set is initialized to exactly the names of
the stored list. -/
theorem layers_normalization :
    (∀ names : List String, names ≠ [] →
       normalizeLayers (LayersResponse.strNames names) =
         names.map (fun n => { name := n, color := "#9ca3af" })) ∧
    (∀ items : List Layer,
       normalizeLayers (LayersResponse.descs items) = items) ∧
    (∀ resp : LayersResponse, ∀ m : String,
       m ∈ selectedInit resp ↔ m ∈ (normalizeLayers resp).map Layer.name) := by
  refine ⟨?_, fun items => rfl, fun resp m => ?_⟩
  · intro names h
    have : 0 < names.length := List.length_pos.mpr h
    simp [normalizeLayers, this]
  · simp [selectedInit]

/-- C6 witness: a concrete one-element bare string array is normalized with
the default color. -/
theorem layers_normalization_witness :
    normalizeLayers (LayersResponse.strNames ["WALLS"]) =
      [{ name := "WALLS", color := "#9ca3af" }] :=
  layers_normalization.1 ["WALLS"] (by decide)

/-- C5: on a 2xx upload response whose parsed body has status "error" the
client surfaces the body's message (or the default) and does not start
polling; polling starts exactly for a 2xx response with a parsed non-error
body, and for the job id that body carries. -/
theorem onload_error_body_never_polls (st : ClientState) (httpStatus : Nat)
    (body : Option ConvertResult) (errDetail : Option String) :
    (∀ res, body = some res → 200 ≤ httpStatus → httpStatus < 300 →
       res.status = "error" →
       (onloadStep st httpStatus body errDetail).2 =
         OnloadOutcome.errorEmitted (res.message.getD "转换失败")) ∧
    (∀ j, (onloadStep st httpStatus body errDetail).2 =
       OnloadOutcome.pollingStarted j ↔
       (200 ≤ httpStatus ∧ httpStatus < 300 ∧
         ∃ res, body = some res ∧ res.status ≠ "error" ∧ j = res.job_id)) := by
  constructor
  · intro res hb h1 h2 herr
    subst hb
    simp [onloadStep, h1, h2, herr]
  · intro j
    by_cases hrange : 200 ≤ httpStatus ∧ httpStatus < 300
    · rcases body with _ | res
      · simp [onloadStep, hrange]
      · by_cases herr : res.status = "error"
        · simp [onloadStep, hrange, herr]
        · simp [onloadStep, hrange, herr, eq_comm]
          intro _ he
          exact herr he.symm
    · simp [onloadStep, hrange]
      intro h1 h2
      exact absurd ⟨h1, h2⟩ hrange

/-- C5 witness: a concrete 2xx response with an error body surfaces the
body's message, and a concrete 2xx response with a queued body starts
polling for its job id. -/
theorem onload_error_body_never_polls_witness :
    (onloadStep st0 200
      (some { job_id := "j1", status := "error", progress := none,
              message := some "bad input" }) none).2 =
      OnloadOutcome.errorEmitted "bad input" ∧
    ((onloadStep st0 200
      (some { job_id := "j1", status := "queued", progress := some 0,
              message := none }) none).2 =
      OnloadOutcome.pollingStarted "j1") :=
  ⟨(onload_error_body_never_polls st0 200
      (some { job_id := "j1", status := "error", progress := none,
              message := some "bad input" }) none).1
      { job_id := "j1", status := "error", progress := none,
        message := some "bad input" } rfl (by decide) (by decide) rfl,
   ((onload_error_body_never_polls st0 200
      (some { job_id := "j1", status := "queued", progress := some 0,
              message := none }) none).2 "j1").mpr
      ⟨by decide, by decide,
       { job_id := "j1", status := "queued", progress := some 0,
         message := none }, rfl, by decide, rfl⟩⟩

/-- C8: cancelUpload aborts the in-flight transport, clears the loading
flag and the current job id, reports cancellation to the caller, and every
subsequent poll invocation for any job stops without touching the state. -/
theorem cancelUpload_stops_everything (st : ClientState)
    (h : st.xhrActive = true) :
    (cancelUpload st).2.1 = true ∧
    (cancelUpload st).1.loading = false ∧
    (cancelUpload st).1.currentJobId = none ∧
    (cancelUpload st).2.2 = [Emit.errorEv "已取消上传"] ∧
    (∀ (j : String) (resp : PollResp),
       pollStep (cancelUpload st).1 j resp =
         ((cancelUpload st).1, PollNext.stop, [])) := by
  refine ⟨h, rfl, rfl, rfl, ?_⟩
  intro j resp
  simp [cancelUpload, pollStep]

/-- C8 witness: cancelling a concrete in-flight upload aborts it and a
subsequent poll for its job is a no-op that stops. -/
theorem cancelUpload_stops_everything_witness :
    (cancelUpload
        { loading := true, progress := 40, progressMsg := "上传中",
          logs := ["开始上传..."], currentJobId := some "j1",
          xhrActive := true }).2.1 = true ∧
    pollStep (cancelUpload
        { loading := true, progress := 40, progressMsg := "上传中",
          logs := ["开始上传..."], currentJobId := some "j1",
          xhrActive := true }).1 "j1" PollResp.transportError =
      ((cancelUpload
        { loading := true, progress := 40, progressMsg := "上传中",
          logs := ["开始上传..."], currentJobId := some "j1",
          xhrActive := true }).1, PollNext.stop, []) := by
  have h := cancelUpload_stops_everything
    { loading := true, progress := 40, progressMsg := "上传中",
      logs := ["开始上传..."], currentJobId := some "j1",
      xhrActive := true } rfl
  exact ⟨h.1, h.2.2.2.2 "j1" PollResp.transportError⟩

/-- C9: a poll invocation whose job id differs from the current job id (in
particular after the job id was cleared by cancellation) changes no state,
emits nothing and schedules no further poll. -/
theorem poll_other_job_noop (st : ClientState) (j : String) (resp : PollResp)
    (h : st.currentJobId ≠ some j) :
    pollStep st j resp = (st, PollNext.stop, []) := by
  simp [pollStep, h]

/-- C9 witness: with the job id cleared, a concrete pending poll for job
"j1" is a stop-without-update. -/
theorem poll_other_job_noop_witness :
    pollStep
      { loading := true, progress := 10, progressMsg := "", logs := [],
        currentJobId := none, xhrActive := false } "j1"
      (PollResp.okResp
        { job_id := "j1", status := "converting", progress := some 50,
          message := some "m" }) =
      ({ loading := true, progress := 10, progressMsg := "", logs := [],
         currentJobId := none, xhrActive := false }, PollNext.stop, []) :=
  poll_other_job_noop
    { loading := true, progress := 10, progressMsg := "", logs := [],
      currentJobId := none, xhrActive := false } "j1"
    (PollResp.okResp
      { job_id := "j1", status := "converting", progress := some 50,
        message := some "m" }) (by decide)

/-- C1 counterexample: a poll for the current job that observes status
"cancelled" does not stop polling; it reschedules at the normal 1000ms
cadence, refuting that every terminal status (done, error, or cancelled)
ends the polling loop. -/
theorem poll_cancelled_status_keeps_polling :
    (pollStep stPolling "job-1"
      (PollResp.okResp
        { job_id := "job-1", status := "cancelled", progress := some 50,
          message := some "已取消" })).2.1 = PollNext.again 1000 ∧
    PollNext.again 1000 ≠ PollNext.stop := by
  decide

/-- C1 (amended): while the client is loading and the poll's job id is
current, a poll stops exactly on an observed status "done" or "error",
reschedules at 2000ms exactly on a transport error or a non-ok response,
and reschedules at 1000ms on every other parsed body (status "cancelled"
included); when the client has cancelled (loading cleared or job id
changed), the poll stops with no state change. -/
theorem pollStep_schedule (st : ClientState) (j : String) (resp : PollResp) :
    ((st.loading = false ∨ st.currentJobId ≠ some j) →
       pollStep st j resp = (st, PollNext.stop, [])) ∧
    (st.loading = true → st.currentJobId = some j →
      (((pollStep st j resp).2.1 = PollNext.stop ↔
          ∃ b, resp = PollResp.okResp b ∧
            (b.status = "done" ∨ b.status = "error")) ∧
       ((pollStep st j resp).2.1 = PollNext.again 2000 ↔
          (resp = PollResp.transportError ∨ resp = PollResp.notOk)) ∧
       ((pollStep st j resp).2.1 = PollNext.again 1000 ↔
          ∃ b, resp = PollResp.okResp b ∧ b.status ≠ "done" ∧
            b.status ≠ "error"))) := by
  constructor
  · intro h
    rcases h with h | h
    · simp [pollStep, h]
    · simp [pollStep, h]
  · intro hl hj
    have hguard : ¬(st.loading = false ∨ st.currentJobId ≠ some j) := by
      simp [hl, hj]
    cases resp with
    | transportError => simp [pollStep, hguard, hl, hj]
    | notOk => simp [pollStep, hguard, hl, hj]
    | okResp b =>
        by_cases hdone : b.status = "done"
        · simp [pollStep, hguard, hdone]
        · by_cases herr : b.status = "error"
          · simp [pollStep, hguard, hdone, herr]
          · simp [pollStep, hguard, hdone, herr]

/-- C1 witness: for the concrete polling state, a transport error backs off
to 2000ms and an observed "done" stops the loop. -/
theorem pollStep_schedule_witness :
    (pollStep stPolling "job-1" PollResp.transportError).2.1 =
      PollNext.again 2000 ∧
    (pollStep stPolling "job-1"
      (PollResp.okResp
        { job_id := "job-1", status := "done", progress := some 100,
          message := some "完成" })).2.1 = PollNext.stop :=
  ⟨((pollStep_schedule stPolling "job-1" PollResp.transportError).2
      rfl rfl).2.1.mpr (Or.inl rfl),
   ((pollStep_schedule stPolling "job-1"
      (PollResp.okResp
        { job_id := "job-1", status := "done", progress := some 100,
          message := some "完成" })).2 rfl rfl).1.mpr
      ⟨{ job_id := "job-1", status := "done", progress := some 100,
         message := some "完成" }, rfl, Or.inl rfl⟩⟩

/-- Unfolding of progressTrace on a cons. -/
lemma progressTrace_cons (st : ClientState) (e : ClientEvent)
    (evs : List ClientEvent) :
    progressTrace st (e :: evs) =
      (step st e).progress :: progressTrace (step st e) evs := rfl

/-- pollStep never changes the current job id. -/
lemma pollStep_fst_currentJobId (st : ClientState) (j : String)
    (r : PollResp) :
    ((pollStep st j r).1).currentJobId = st.currentJobId := by
  unfold pollStep
  split
  · rfl
  · cases r with
    | transportError => rfl
    | notOk => rfl
    | okResp b =>
        dsimp only
        split_ifs <;> rfl

/-- When the client is not loading, a poll invocation is a no-op. -/
lemma pollStep_not_loading (st : ClientState) (j : String) (r : PollResp)
    (h : st.loading = false) :
    pollStep st j r = (st, PollNext.stop, []) := by
  simp [pollStep, h]

/-- An effective ok poll displays exactly the reported progress (with the
missing-field default 0). -/
lemma pollStep_ok_progress (st : ClientState) (j : String) (b : ConvertResult)
    (hl : st.loading = true) (hj : st.currentJobId = some j) :
    ((pollStep st j (PollResp.okResp b)).1).progress = b.progress.getD 0 := by
  have hguard : ¬(st.loading = false ∨ st.currentJobId ≠ some j) := by
    simp [hl, hj]
  unfold pollStep
  rw [if_neg hguard]
  dsimp only
  split_ifs <;> rfl

/-- Dropping the middle element of a non-decreasing chain keeps it
non-decreasing. -/
lemma chain_le_drop_mid {a b : ℕ} {l : List ℕ}
    (h : List.Chain' (· ≤ ·) (a :: b :: l)) :
    List.Chain' (· ≤ ·) (a :: l) := by
  rcases l with _ | ⟨c, l⟩
  · simp
  · rw [List.chain'_cons] at h ⊢
    obtain ⟨hab, h2⟩ := h
    rw [List.chain'_cons] at h2
    exact ⟨le_trans hab h2.1, h2.2⟩

/-- Over a run of ok polls for the current job, the displayed progress is
non-decreasing whenever the server-reported snapshots are. -/
lemma pollTrace_mono (bodies : List ConvertResult) (st : ClientState)
    (j : String) (hj : st.currentJobId = some j)
    (h : List.Chain' (· ≤ ·)
      (st.progress :: bodies.map (fun b => b.progress.getD 0))) :
    List.Chain' (· ≤ ·)
      (st.progress :: progressTrace st
        (bodies.map (fun b => ClientEvent.pollArrive j (PollResp.okResp b)))) := by
  induction bodies generalizing st with
  | nil => simp [progressTrace]
  | cons b rest ih =>
      rw [List.map_cons, progressTrace_cons]
      have hstep : step st (ClientEvent.pollArrive j (PollResp.okResp b)) =
          (pollStep st j (PollResp.okResp b)).1 := rfl
      by_cases hl : st.loading = true
      · have hprog : ((pollStep st j (PollResp.okResp b)).1).progress =
            b.progress.getD 0 := pollStep_ok_progress st j b hl hj
        have hjob : ((pollStep st j (PollResp.okResp b)).1).currentJobId =
            some j := by
          rw [pollStep_fst_currentJobId]; exact hj
        rw [hstep, List.chain'_cons]
        constructor
        · rw [hprog]
          rw [List.map_cons, List.chain'_cons] at h
          exact h.1
        · have htail : List.Chain' (· ≤ ·)
              (((pollStep st j (PollResp.okResp b)).1).progress ::
                rest.map (fun b => b.progress.getD 0)) := by
            rw [hprog]
            rw [List.map_cons] at h
            exact h.tail
          exact ih ((pollStep st j (PollResp.okResp b)).1) hjob htail
      · have hl' : st.loading = false := by
          revert hl; cases st.loading <;> simp
        have hid : (pollStep st j (PollResp.okResp b)).1 = st :=
          congrArg Prod.fst (pollStep_not_loading st j (PollResp.okResp b) hl')
        rw [hstep, hid, List.chain'_cons]
        refine ⟨le_refl _, ?_⟩
        rw [List.map_cons] at h
        exact ih st hj (chain_le_drop_mid h)

/-- C7 counterexample: across upload completion the displayed progress
falls from 100 to 0 although no terminal status was reached — the displayed
sequence from upload start through polling is not non-decreasing. -/
theorem progress_regress_counterexample :
    progressTrace stUploading evRegress = [100, 0] ∧
    ¬ List.Chain' (· ≤ ·) (progressTrace stUploading evRegress) ∧
    (runTrace stUploading evRegress).loading = true := by
  have h1 : progressTrace stUploading evRegress = [100, 0] := by decide
  refine ⟨h1, ?_, by decide⟩
  rw [h1, List.chain'_cons]
  simp

/-- C7 (amended): displayed progress is non-decreasing within the upload
phase (the rounded percentage is monotone in the bytes loaded) and within
the polling phase (whenever the server-reported snapshots are
non-decreasing), but the onload handler resets the displayed value to 0
when it starts polling, so the sequence may regress at that boundary. -/
theorem progress_monotone_per_phase :
    (∀ l1 l2 t : ℕ, 0 < t → l1 ≤ l2 →
       uploadPercent l1 t ≤ uploadPercent l2 t) ∧
    (∀ (st : ClientState) (httpStatus : ℕ) (res : ConvertResult)
       (d : Option String), 200 ≤ httpStatus → httpStatus < 300 →
       res.status ≠ "error" →
       (onloadStep st httpStatus (some res) d).1.progress = 0) ∧
    (∀ (bodies : List ConvertResult) (st : ClientState) (j : String),
       st.currentJobId = some j →
       List.Chain' (· ≤ ·)
         (st.progress :: bodies.map (fun b => b.progress.getD 0)) →
       List.Chain' (· ≤ ·)
         (st.progress :: progressTrace st
           (bodies.map (fun b =>
             ClientEvent.pollArrive j (PollResp.okResp b))))) := by
  refine ⟨?_, ?_, pollTrace_mono⟩
  · intro l1 l2 t _ hle
    exact Nat.div_le_div_right
      (Nat.add_le_add_right (Nat.mul_le_mul_left 200 hle) t)
  · intro st httpStatus res d h1 h2 herr
    simp [onloadStep, h1, h2, herr]

/-- C7 witness: concrete instances of the three amended conjuncts. -/
theorem progress_monotone_per_phase_witness :
    uploadPercent 3 10 ≤ uploadPercent 7 10 ∧
    (onloadStep stUploading 200
      (some { job_id := "j1", status := "queued", progress := some 0,
              message := some "排队中" }) none).1.progress = 0 ∧
    List.Chain' (· ≤ ·)
      (stPolling.progress :: progressTrace stPolling
        ([{ job_id := "job-1", status := "converting", progress := some 40,
            message := some "m1" },
          { job_id := "job-1", status := "converting", progress := some 70,
            message := some "m2" }].map (fun b =>
              ClientEvent.pollArrive "job-1" (PollResp.okResp b)))) :=
  ⟨progress_monotone_per_phase.1 3 7 10 (by decide) (by decide),
   progress_monotone_per_phase.2.1 stUploading 200
     { job_id := "j1", status := "queued", progress := some 0,
       message := some "排队中" } none (by decide) (by decide) (by decide),
   progress_monotone_per_phase.2.2
     [{ job_id := "job-1", status := "converting", progress := some 40,
        message := some "m1" },
      { job_id := "job-1", status := "converting", progress := some 70,
        message := some "m2" }] stPolling "job-1" rfl
     (by
       show List.Chain' (· ≤ ·) [(10 : ℕ), 40, 70]
       rw [List.chain'_cons, List.chain'_cons]
       exact ⟨by norm_num, by norm_num, List.chain'_singleton _⟩)⟩

end Dwg2Mvt
